import Mathlib

/-!
Verification of the flutter-setup repository.

This file shallowly embeds the relevant parts of the Python sources
(`flutter_setup/config.py`, `flutter_setup/flutter_manager.py`,
`flutter_setup/project_creator.py`, `flutter_setup/bootstrap.py`,
`flutter_setup/core.py`, `flutter_setup/prerequisites.py`) and proves
properties of the embedding.

Modelling conventions:
- Python strings are Lean `String`s; where character-level manipulation
  matters (the package-name sanitizer, the entry-point source edit, the
  shell-profile edit) we work on `List Char` (`String.data`).
- `str.lower`, `str.isalpha`, `str.strip` are modelled character-wise over
  ASCII.  Every character reaching the `isalpha` test in the sanitizer is
  drawn from `[a-z0-9_]`, where the ASCII model agrees with Python.
- Python exceptions become an explicit error type `PyErr`; a fallible
  procedure returns `Except (PyErr × World) World`, the `World` in the
  error carrying the mutated state at the moment the exception is raised
  (Python exceptions do not roll effects back).
- External commands (git, flutter, brew) are modelled by their documented
  effect on the world state, with Boolean oracle fields of the world
  deciding whether a given command succeeds.
- Console output is modelled only where a verified claim mentions it (the
  per-stage dry-run intention messages, collected in `World.console`);
  decorative prints are elided.
-/

namespace FlutterSetup

/-! ## Character-level utilities (ASCII models of Python str methods) -/

/-- `[a-z]` -/
def isLowerAlpha (c : Char) : Bool := 97 ≤ c.toNat && c.toNat ≤ 122

/-- `[0-9]` -/
def isDigitChar (c : Char) : Bool := 48 ≤ c.toNat && c.toNat ≤ 57

/-- The character class `[a-z0-9_]` of the regular expression of the sanitizer. -/
def isPkgChar (c : Char) : Bool := isLowerAlpha c || isDigitChar c || c == '_'

/-- Python `str.isalpha`, restricted to ASCII letters. -/
def pyIsAlpha (c : Char) : Bool := (65 ≤ c.toNat && c.toNat ≤ 90) || isLowerAlpha c

/-- Python `str.lower`, character-wise (ASCII). -/
def pyLowerChar (c : Char) : Char :=
  if 65 ≤ c.toNat ∧ c.toNat ≤ 90 then Char.ofNat (c.toNat + 32) else c

def pyLower (s : List Char) : List Char := s.map pyLowerChar

def pyLowerS (s : String) : String := String.mk (pyLower s.data)

/-- Drop the trailing run of characters satisfying `p`. -/
def dropTrailing (p : Char → Bool) (l : List Char) : List Char :=
  (l.reverse.dropWhile p).reverse

/-- Python `str.strip(chars)` for a single-character class `p`. -/
def stripBoth (p : Char → Bool) (l : List Char) : List Char :=
  dropTrailing p (l.dropWhile p)

def isUnderscore (c : Char) : Bool := c == '_'

/-! ## `Config._sanitize_package_name` (config.py lines 72-90) -/

/-- The fallback token `"app"`. -/
def appToken : List Char := "app".data

/-- `re.sub(r'[^a-z0-9_]', '_', name.lower())`. -/
def sanitizeStep1 (name : List Char) : List Char :=
  (pyLower name).map (fun c => if isPkgChar c then c else '_')

/-- `if sanitized and not sanitized[0].isalpha(): sanitized = f"app_{sanitized}"`. -/
def sanitizeStep2 (s1 : List Char) : List Char :=
  match s1 with
  | [] => s1
  | c :: _ => if pyIsAlpha c then s1 else "app_".data ++ s1

/-- `Config._sanitize_package_name`:
lowercase, replace every character outside `[a-z0-9_]` with `_`, prefix
`app_` if the (nonempty) result does not start with a letter, strip
leading/trailing underscores, fall back to `"app"` if empty. -/
def sanitize_package_name (name : List Char) : List Char :=
  let s3 := stripBoth isUnderscore (sanitizeStep2 (sanitizeStep1 name))
  if s3 = [] then appToken else s3

/-- The regular expression `^[a-z][a-z0-9_]*$` as a Boolean predicate. -/
def matchesPkgPattern : List Char → Bool
  | [] => false
  | c :: cs => isLowerAlpha c && cs.all isPkgChar

/-! ## `Config._validate` (config.py lines 36-55) and the exception model -/

/-- The Python exceptions that the embedded code can raise.  `valueError` is
the builtin `ValueError`; the others are the classes of `exceptions.py`;
`stepFailure` stands for an arbitrary uncaught exception escaping the body
of a bootstrap step (e.g. an `OSError` from a file write). -/
inductive PyErr where
  | valueError (msg : String)
  | configurationError (msg : String)
  | prerequisitesError (msg : String)
  | flutterInstallationError (msg : String)
  | projectCreationError (msg : String)
  | flutterSetupError (msg : String)
  | stepFailure (step : String)
  deriving DecidableEq, Repr

/-- The fields of the `Config` dataclass (config.py lines 16-30).  The
`Literal` type hints of the Python source do not constrain runtime values,
so every string-typed field is a plain `String`. -/
structure Config where
  projectName : String
  platforms : List String
  org : String
  channel : String
  outputDir : String
  template : String
  iosLanguage : String
  androidLanguage : String
  flutterUpdateMode : String
  dryRun : Bool
  verbose : Bool
  deriving DecidableEq, Repr

/-- The set literal `valid_platforms` of `_validate`. -/
def validPlatforms : List String := ["ios", "android", "macos", "linux", "windows", "web"]

/-- The platform loop of `_validate`: the first platform whose lowercasing
is not in `valid_platforms`, if any. -/
def firstInvalidPlatform : List String → Option String
  | [] => none
  | p :: ps => if pyLowerS p ∈ validPlatforms then firstInvalidPlatform ps else some p

/-- `Config._validate`, run by `__post_init__` at construction. -/
def validate (c : Config) : Except PyErr Unit :=
  if c.projectName = "" then .error (.valueError "Project name cannot be empty")
  else if c.platforms = [] then .error (.valueError "At least one platform must be specified")
  else match firstInvalidPlatform c.platforms with
    | some p => .error (.valueError ("Invalid platform: " ++ p))
    | none =>
      if c.template = "plugin" then
        if c.iosLanguage ≠ "swift" ∧ c.iosLanguage ≠ "objc" then
          .error (.valueError ("Invalid iOS language: " ++ c.iosLanguage))
        else if c.androidLanguage ≠ "kotlin" ∧ c.androidLanguage ≠ "java" then
          .error (.valueError ("Invalid Android language: " ++ c.androidLanguage))
        else .ok ()
      else .ok ()

/-! ## Substring and line utilities for the file-editing code -/

/-- Python `pat in s` (substring test), on character lists. -/
def containsSub (pat : List Char) : List Char → Bool
  | [] => pat.isEmpty
  | c :: cs => pat.isPrefixOf (c :: cs) || containsSub pat cs

/-- Python `pat in s` on `String`s. -/
def containsS (pat s : String) : Bool := containsSub pat.data s.data

/-- Worker for `replaceAll`: `skip` characters of already-matched pattern
still to be dropped before matching resumes. -/
def replAux (pat rep : List Char) : Nat → List Char → List Char
  | _, [] => []
  | k + 1, _ :: cs => replAux pat rep k cs
  | 0, c :: cs =>
    if pat.isPrefixOf (c :: cs) then rep ++ replAux pat rep (pat.length - 1) cs
    else c :: replAux pat rep 0 cs

/-- Python `s.replace(pat, rep)` (global, left-to-right, non-overlapping). -/
def replaceAll (pat rep s : List Char) : List Char := replAux pat rep 0 s

/-- Python `content.split("\n")`. -/
def splitOnNl : List Char → List (List Char)
  | [] => [[]]
  | c :: cs =>
    if c = '\n' then [] :: splitOnNl cs
    else
      match splitOnNl cs with
      | [] => [[c]]
      | l :: ls => (c :: l) :: ls

/-- Python `"\n".join(lines)`. -/
def joinNl : List (List Char) → List Char
  | [] => []
  | [l] => l
  | l :: ls => l ++ '\n' :: joinNl ls

/-- Python whitespace (ASCII), as stripped by `str.strip()`. -/
def isPySpace (c : Char) : Bool :=
  c == ' ' || c == '\t' || c == '\n' || c == '\r' || c == '\x0b' || c == '\x0c'

/-- Python `line.strip()`. -/
def pyStrip (l : List Char) : List Char := stripBoth isPySpace l

/-- Python `list.insert(i, x)` (clamping at the ends, as Python does). -/
def insertAt (i : Nat) (x : List Char) (ls : List (List Char)) : List (List Char) :=
  ls.take i ++ x :: ls.drop i

/-! ## `ProjectBootstrap._modify_main_dart` (bootstrap.py lines 275-312) -/

def singleQuote : Char := Char.ofNat 39

/-- The guard substring `"flutter_dotenv"`. -/
def dotenvMarker : List Char := "flutter_dotenv".data

/-- The inserted line `import (sq)package:flutter_dotenv/flutter_dotenv.dart(sq);`. -/
def dotenvImportLine : List Char :=
  "import ".data ++ [singleQuote] ++ "package:flutter_dotenv/flutter_dotenv.dart".data
    ++ [singleQuote, ';']

def importToken : List Char := "import ".data

def packageFlutterToken : List Char := "package:flutter".data

/-- The replaced occurrence `void main() \x7b`. -/
def mainPattern : List Char := "void main() \x7b".data

/-- The replacement rewriting the entry function to load `.env` first. -/
def mainReplacement : List Char :=
  "Future<void> main() async \x7b\n  await dotenv.load(fileName: \".env\");".data

/-- `line.strip().startswith("import ") and "package:flutter" in line`. -/
def isFrameworkImport (line : List Char) : Bool :=
  importToken.isPrefixOf (pyStrip line) && containsSub packageFlutterToken line

/-- Index at which the dotenv import is inserted: one past the first
framework import line, or 0 if none is found. -/
def dotenvInsertPos (lines : List (List Char)) : Nat :=
  match lines.findIdx? isFrameworkImport with
  | some i => i + 1
  | none => 0

/-- `ProjectBootstrap._modify_main_dart` as a pure transform of the file
content (`none` = `lib/main.dart` absent, in which case the method returns
without touching anything).  The surrounding `try/except` only downgrades
I/O failures and does not alter the content transform. -/
def modify_main_dart : Option (List Char) → Option (List Char)
  | none => none
  | some content =>
    if containsSub dotenvMarker content then some content
    else
      let lines := splitOnNl content
      let pos := dotenvInsertPos lines
      some (replaceAll mainPattern mainReplacement (joinNl (insertAt pos dotenvImportLine lines)))

/-! ## The world state shared by the four stages -/

/-- The nine calls in the body of `ProjectBootstrap.bootstrap_project`
(bootstrap.py lines 30-55), in source order. -/
inductive BStep where
  | vscodeConfig
  | makefile
  | testStructure
  | analysisOptions
  | githubActions
  | addDependencies
  | environmentSupport
  | readme
  | formatCode
  deriving DecidableEq, Repr

def bootstrapSteps : List BStep :=
  [.vscodeConfig, .makefile, .testStructure, .analysisOptions, .githubActions,
   .addDependencies, .environmentSupport, .readme, .formatCode]

def stepName : BStep → String
  | .vscodeConfig => "create_vscode_config"
  | .makefile => "create_makefile"
  | .testStructure => "create_test_structure"
  | .analysisOptions => "create_analysis_options"
  | .githubActions => "create_github_actions"
  | .addDependencies => "add_dependencies"
  | .environmentSupport => "create_environment_support"
  | .readme => "create_readme"
  | .formatCode => "format_code"

/-- Which step bodies are wrapped in `try/except Exception` in
bootstrap.py: only `_add_dependencies` and `_format_code`.  (Inside
`_create_environment_support`, the `_modify_main_dart` sub-call is
internally caught, but the `.env` file write is not, so an exception in
the body of that step propagates.) -/
def stepCatches : BStep → Bool
  | .addDependencies => true
  | .formatCode => true
  | _ => false

/-- The mutable state threaded through the run: configuration inputs,
Boolean oracles deciding whether each external command succeeds, the
on-disk state the stages maintain, and the modelled console lines. -/
structure World where
  dryRun : Bool
  flutterUpdateMode : String
  channel : String
  template : String
  platforms : List String
  home : String
  xcodeOk : Bool
  brewOk : Bool
  pkgInstallOk : Bool
  flutterRootExists : Bool
  gitDirExists : Bool
  localHead : Nat
  remoteHead : Nat
  canFastForward : Bool
  gitOk : Bool
  zprofile : Option String
  doctorRan : Bool
  doctorExit : Nat
  outputDirExists : Bool
  projectPathExists : Bool
  generations : Nat
  createOk : Bool
  failingSteps : List BStep
  bootstrapCompleted : List BStep
  console : List String
  deriving DecidableEq, Repr

/-! ## `FlutterManager` (flutter_manager.py) -/

/-- The line `export PATH="<flutter_root>/bin:$PATH"` appended to
`~/.zprofile`. -/
def flutterPathLine (w : World) : String :=
  "export PATH=\"" ++ w.home ++ "/development/flutter/bin:$PATH\""

/-- `FlutterManager._install_flutter`: clone the channel branch (shallow);
on git failure raise `FlutterInstallationError`. -/
def installFlutter (w : World) : Except (PyErr × World) World :=
  if w.gitOk then
    .ok { w with flutterRootExists := true, gitDirExists := true, localHead := w.remoteHead }
  else .error (.flutterInstallationError "Failed to install Flutter", w)

/-- `FlutterManager._reclone_flutter`: delete the tree, then install; any
exception is wrapped in `FlutterInstallationError`. -/
def recloneFlutter (w : World) : Except (PyErr × World) World :=
  let w₁ := { w with flutterRootExists := false, gitDirExists := false }
  if w₁.gitOk then
    .ok { w₁ with flutterRootExists := true, gitDirExists := true, localHead := w₁.remoteHead }
  else .error (.flutterInstallationError "Failed to reclone Flutter", w₁)

/-- `FlutterManager._handle_diverged_branches`.  The `rev-list`
ahead/behind diagnostic is read-only and its failure is swallowed, so it
has no state effect; `git reset --hard origin/<channel>` makes the local
head equal the remote head. -/
def handle_diverged_branches (w : World) : Except (PyErr × World) World :=
  if w.flutterUpdateMode = "skip" then .ok w
  else if w.flutterUpdateMode = "reset" then
    if w.gitOk then .ok { w with localHead := w.remoteHead }
    else .error (.flutterInstallationError "Failed to reset Flutter", w)
  else .ok w

/-- `FlutterManager._update_flutter`: set-url (check=False), fetch,
checkout with tracking-branch fallback, fast-forward-only merge; on
divergence `_handle_diverged_branches`. -/
def updateFlutter (w : World) : Except (PyErr × World) World :=
  if w.gitOk then
    if w.canFastForward then .ok { w with localHead := w.remoteHead }
    else handle_diverged_branches w
  else .error (.flutterInstallationError "Failed to update Flutter", w)

/-- `FlutterManager._ensure_flutter_path`: append the export line to
`~/.zprofile` only if not already present, creating the file if absent.
(The `sys.path` tweak touches only the current process, not the disk.) -/
def ensureFlutterPath (w : World) : World :=
  let line := flutterPathLine w
  match w.zprofile with
  | some content =>
    if containsS line content then w
    else { w with zprofile := some (content ++ "\n" ++ line ++ "\n") }
  | none => { w with zprofile := some (line ++ "\n") }

/-- `FlutterManager._run_flutter_doctor`: runs `flutter doctor -v` with
`check=False`; a non-zero exit only prints (the unaccepted-licenses branch
also only prints), and the broad `except` turns any failure into a
warning, so the call never raises. -/
def runFlutterDoctor (w : World) : World :=
  { w with doctorRan := true }

/-- `FlutterManager.ensure_flutter`. -/
def ensure_flutter (w : World) : Except (PyErr × World) World :=
  if w.dryRun then .ok { w with console := w.console ++ ["DRY RUN: Would manage Flutter SDK"] }
  else if w.flutterUpdateMode = "reclone" then recloneFlutter w
  else
    match (if ¬ (w.flutterRootExists ∧ w.gitDirExists) then installFlutter w else updateFlutter w) with
    | .error e => .error e
    | .ok w₁ => .ok (runFlutterDoctor (ensureFlutterPath w₁))

/-! ## `ProjectCreator.create_project` (project_creator.py lines 24-54) -/

def create_project (w : World) : Except (PyErr × World) World :=
  if w.dryRun then .ok { w with console := w.console ++ ["DRY RUN: Would create Flutter project"] }
  else if w.projectPathExists then .ok w
  else
    let w₁ := { w with outputDirExists := true }
    if w₁.createOk then
      .ok { w₁ with projectPathExists := true, generations := w₁.generations + 1 }
    else .error (.projectCreationError "Failed to create project", w₁)

/-! ## `PrerequisitesManager.check_and_install` (prerequisites.py) -/

/-- `check_and_install`, with command outcomes given by the oracle fields.
Steps 1-3 (Xcode tools, Homebrew, package installs) are fatal; the
platform-tool step only prints warnings on failure. -/
def check_and_install (w : World) : Except (PyErr × World) World :=
  if w.dryRun then
    .ok { w with console := w.console ++ ["DRY RUN: Would check and install prerequisites"] }
  else if ¬ w.xcodeOk then
    .error (.prerequisitesError "Xcode Command Line Tools installation required", w)
  else if ¬ w.brewOk then
    .error (.prerequisitesError "Failed to install Homebrew", w)
  else if ¬ w.pkgInstallOk then
    .error (.prerequisitesError "Failed to install package", w)
  else .ok w

/-! ## `ProjectBootstrap.bootstrap_project` (bootstrap.py lines 22-55) -/

/-- One call in the body of `bootstrap_project`: `w.failingSteps` is the
oracle listing the steps whose body raises; a failing step whose body is
wrapped in `try/except` prints a warning and continues. -/
def runStep (w : World) (s : BStep) : Except (PyErr × World) World :=
  if s ∈ w.failingSteps then
    if stepCatches s then .ok w
    else .error (.stepFailure (stepName s), w)
  else .ok { w with bootstrapCompleted := w.bootstrapCompleted ++ [s] }

def runStepList : World → List BStep → Except (PyErr × World) World
  | w, [] => .ok w
  | w, s :: rest =>
    match runStep w s with
    | .error e => .error e
    | .ok w' => runStepList w' rest

def bootstrap_project (w : World) : Except (PyErr × World) World :=
  if w.dryRun then
    .ok { w with console := w.console ++ ["DRY RUN: Would bootstrap development environment"] }
  else runStepList w bootstrapSteps

/-- Whether a failing step aborts `bootstrap_project`: it fails and its
body is not wrapped in `try/except`. -/
def stepAborts (w : World) (s : BStep) : Bool :=
  decide (s ∈ w.failingSteps) && !stepCatches s

/-- Whether a step completes its writes: it does not fail at all. -/
def stepWrites (w : World) (s : BStep) : Bool := decide (s ∉ w.failingSteps)

/-- The first failing bootstrap step whose body is not internally caught,
in source order. -/
def firstUncaughtFailing (w : World) : Option BStep :=
  bootstrapSteps.find? (stepAborts w)

/-- The steps whose files are written before the first uncaught failure
aborts the bootstrapper. -/
def completedBeforeAbort (w : World) : List BStep :=
  (bootstrapSteps.takeWhile (fun s => !stepAborts w s)).filter (stepWrites w)

/-! ## `FlutterSetup` orchestration (core.py) -/

/-- `FlutterSetup._run_prerequisites`: any exception re-raised as
`PrerequisitesError`. -/
def runPrerequisitesStage (w : World) : Except (PyErr × World) World :=
  match check_and_install w with
  | .ok w' => .ok w'
  | .error (_, w') => .error (.prerequisitesError "Failed to install prerequisites", w')

/-- `FlutterSetup._run_flutter_installation`: any exception re-raised as
`FlutterInstallationError`. -/
def runFlutterStage (w : World) : Except (PyErr × World) World :=
  match ensure_flutter w with
  | .ok w' => .ok w'
  | .error (_, w') => .error (.flutterInstallationError "Failed to install Flutter", w')

/-- `FlutterSetup._run_project_creation`: any exception re-raised as
`ProjectCreationError`. -/
def runProjectCreationStage (w : World) : Except (PyErr × World) World :=
  match create_project w with
  | .ok w' => .ok w'
  | .error (_, w') => .error (.projectCreationError "Failed to create project", w')

/-- `FlutterSetup._run_bootstrap`: any exception re-raised as the generic
`FlutterSetupError`. -/
def runBootstrapStage (w : World) : Except (PyErr × World) World :=
  match bootstrap_project w with
  | .ok w' => .ok w'
  | .error (_, w') => .error (.flutterSetupError "Failed to bootstrap project", w')

/-- `FlutterSetup.run`: the four stages in order (`_show_next_steps` only
prints). -/
def runSetup (w : World) : Except (PyErr × World) World :=
  match runPrerequisitesStage w with
  | .error e => .error e
  | .ok w₁ =>
    match runFlutterStage w₁ with
    | .error e => .error e
    | .ok w₂ =>
      match runProjectCreationStage w₂ with
      | .error e => .error e
      | .ok w₃ => runBootstrapStage w₃

/-! ## Concrete worlds used by counterexamples and witnesses -/

def baseWorld : World :=
  { dryRun := false, flutterUpdateMode := "reset", channel := "stable",
    template := "app", platforms := ["ios"], home := "/Users/dev",
    xcodeOk := true, brewOk := true, pkgInstallOk := true,
    flutterRootExists := true, gitDirExists := true,
    localHead := 3, remoteHead := 7, canFastForward := false, gitOk := true,
    zprofile := some "", doctorRan := false, doctorExit := 0,
    outputDirExists := true, projectPathExists := false, generations := 0,
    createOk := true, failingSteps := [], bootstrapCompleted := [], console := [] }

/-- A non-dry-run world with update policy `reclone`. -/
def recloneWorld : World := { baseWorld with flutterUpdateMode := "reclone" }

/-- A dry-run world. -/
def dryWorld : World := { baseWorld with dryRun := true }

/-- A non-dry-run world in which the editor-config step fails. -/
def vscodeFailWorld : World := { baseWorld with failingSteps := [.vscodeConfig] }

/-- A non-dry-run world in which the (internally caught) dependency step
fails. -/
def depFailWorld : World := { baseWorld with failingSteps := [.addDependencies] }

/-- A `lib/main.dart` content without the dotenv marker. -/
def mainDartSample : List Char :=
  "import package:flutter/material.dart;\n\nvoid main() \x7b\n  runApp();\n\x7d\n".data

/-- A file content already containing the loading marker. -/
def markerSample : List Char := "library flutter_dotenv;\nvoid main() \x7b\n\x7d\n".data

/-- A concrete configuration with an empty project name (the inputs of
`test_invalid_project_name` in tests/test_config.py). -/
def cfgEmptyName : Config :=
  { projectName := "", platforms := ["ios"], org := "com.test", channel := "stable",
    outputDir := ".", template := "app", iosLanguage := "swift",
    androidLanguage := "kotlin", flutterUpdateMode := "reset",
    dryRun := false, verbose := false }

/-- A concrete configuration whose platform token `"IOS"` is outside the
fixed enumeration but lowercases into it. -/
def cfgUpperPlatform : Config :=
  { cfgEmptyName with projectName := "TestApp", platforms := ["IOS"] }

/-- A concrete configuration with an invalid platform token (the inputs of
`test_invalid_platforms` in tests/test_config.py). -/
def cfgBadPlatform : Config :=
  { cfgEmptyName with projectName := "TestApp", platforms := ["ios", "invalid"] }

/-! # Theorems -/

/-! ## Character and list helper lemmas -/

theorem isPkgChar_subst (c : Char) : isPkgChar (if isPkgChar c then c else '_') = true := by
  by_cases h : isPkgChar c = true
  · rw [if_pos h]
    exact h
  · rw [if_neg h]
    decide

theorem sanitizeStep1_all_pkg (name : List Char) :
    (sanitizeStep1 name).all isPkgChar = true := by
  rw [sanitizeStep1, List.all_eq_true]
  intro x hx
  rw [List.mem_map] at hx
  obtain ⟨c, -, rfl⟩ := hx
  exact isPkgChar_subst c

theorem isPkgChar_cases {c : Char} (h : isPkgChar c = true) :
    (97 ≤ c.toNat ∧ c.toNat ≤ 122) ∨ (48 ≤ c.toNat ∧ c.toNat ≤ 57) ∨ c = '_' := by
  simpa [isPkgChar, isLowerAlpha, isDigitChar, Bool.or_eq_true, Bool.and_eq_true,
    decide_eq_true_eq, beq_iff_eq, or_assoc] using h

theorem pyIsAlpha_iff_lower_of_pkg {c : Char} (h : isPkgChar c = true) :
    pyIsAlpha c = isLowerAlpha c := by
  rw [Bool.eq_iff_iff]
  simp only [pyIsAlpha, isLowerAlpha, Bool.or_eq_true, Bool.and_eq_true, decide_eq_true_eq]
  rcases isPkgChar_cases h with h' | h' | h'
  · omega
  · omega
  · subst h'
    decide

theorem lower_ne_underscore {c : Char} (h : isLowerAlpha c = true) : (c == '_') = false := by
  rcases Bool.eq_false_or_eq_true (c == '_') with ht | hf
  · exfalso
    have : c = '_' := beq_iff_eq.mp ht
    subst this
    simp [isLowerAlpha] at h
  · exact hf

theorem pyLowerChar_pkg {c : Char} (h : isPkgChar c = true) : pyLowerChar c = c := by
  rw [pyLowerChar, if_neg]
  rcases isPkgChar_cases h with h' | h' | h'
  · omega
  · omega
  · subst h'
    decide

theorem map_id_of_mem {f : Char → Char} {l : List Char} (h : ∀ c ∈ l, f c = c) :
    l.map f = l := by
  induction l with
  | nil => rfl
  | cons c t ih =>
    simp only [List.map_cons, h c (List.mem_cons_self c t), List.cons.injEq, true_and]
    exact ih fun x hx => h x (List.mem_cons_of_mem c hx)

theorem dropTrailing_cons {p : Char → Bool} {c : Char} (t : List Char) (hc : p c = false) :
    dropTrailing p (c :: t) = c :: dropTrailing p t := by
  rw [dropTrailing, dropTrailing, List.reverse_cons, List.dropWhile_append]
  by_cases h : (t.reverse.dropWhile p).isEmpty
  · rw [if_pos h, List.isEmpty_iff.mp h, List.reverse_nil]
    simp [List.dropWhile, hc]
  · rw [if_neg (by simpa using h)]
    rw [List.reverse_append, List.reverse_singleton, List.singleton_append]

theorem mem_dropTrailing {p : Char → Bool} {x : Char} {l : List Char}
    (h : x ∈ dropTrailing p l) : x ∈ l := by
  rw [dropTrailing, List.mem_reverse] at h
  exact List.mem_reverse.mp ((List.dropWhile_suffix p).sublist.subset h)

theorem dropWhile_headI_false {p : Char → Bool} {l : List Char}
    (h : l.dropWhile p ≠ []) : p ((l.dropWhile p).headI) = false := by
  induction l with
  | nil => simp at h
  | cons c t ih =>
    by_cases hc : p c = true
    · rw [List.dropWhile_cons_of_pos hc] at h ⊢
      exact ih h
    · rw [List.dropWhile_cons_of_neg (by simp [hc])]
      simpa using hc

theorem headI_append_of_ne_nil {l l' : List Char} (h : l ≠ []) :
    (l ++ l').headI = l.headI := by
  cases l with
  | nil => exact absurd rfl h
  | cons c t => rfl

/-! ## Structure of the sanitizer output -/

theorem sanitizeStep2_spec {s1 : List Char} (hne : s1 ≠ [])
    (hall : s1.all isPkgChar = true) :
    ∃ d u, sanitizeStep2 s1 = d :: u ∧ isLowerAlpha d = true ∧ u.all isPkgChar = true := by
  cases s1 with
  | nil => exact absurd rfl hne
  | cons c t =>
    rw [List.all_cons, Bool.and_eq_true] at hall
    obtain ⟨hc, ht⟩ := hall
    rw [sanitizeStep2]
    by_cases ha : pyIsAlpha c = true
    · refine ⟨c, t, by rw [if_pos ha], ?_, ht⟩
      rw [← pyIsAlpha_iff_lower_of_pkg hc]
      exact ha
    · refine ⟨'a', 'p' :: 'p' :: '_' :: c :: t, ?_, by decide, ?_⟩
      · rw [if_neg ha]
        rfl
      · simp only [List.all_cons, Bool.and_eq_true]
        exact ⟨by decide, by decide, by decide, hc, ht⟩

/-- The output of the sanitizer always matches `^[a-z][a-z0-9_]*$` and
never ends in an underscore. -/
theorem sanitize_spec (name : List Char) :
    matchesPkgPattern (sanitize_package_name name) = true ∧
    ((sanitize_package_name name).reverse.headI == '_') = false := by
  rw [sanitize_package_name]
  by_cases hs1 : sanitizeStep1 name = []
  · rw [hs1]
    decide
  · obtain ⟨d, u, h2, hd, hu⟩ := sanitizeStep2_spec hs1 (sanitizeStep1_all_pkg name)
    rw [h2]
    have hdu : isUnderscore d = false := by
      rw [isUnderscore]
      exact lower_ne_underscore hd
    have hstrip : stripBoth isUnderscore (d :: u) = d :: dropTrailing isUnderscore u := by
      rw [stripBoth, List.dropWhile_cons_of_neg (by simp [hdu])]
      exact dropTrailing_cons u hdu
    rw [hstrip, if_neg (by simp)]
    constructor
    · rw [matchesPkgPattern, hd, Bool.true_and, List.all_eq_true]
      intro x hx
      exact List.all_eq_true.mp hu x (mem_dropTrailing hx)
    · rw [List.reverse_cons]
      by_cases hdt : dropTrailing isUnderscore u = []
      · rw [hdt]
        simpa [isUnderscore] using hdu
      · have hrev : (dropTrailing isUnderscore u).reverse = u.reverse.dropWhile isUnderscore := by
          rw [dropTrailing, List.reverse_reverse]
        have hne : u.reverse.dropWhile isUnderscore ≠ [] := by
          rw [← hrev]
          simpa using hdt
        rw [headI_append_of_ne_nil (by rw [hrev]; exact hne), hrev]
        have := dropWhile_headI_false hne
        rwa [isUnderscore] at this

/-- Claim C1: For every project name string, the derived package identifier
(computed by `_sanitize_package_name`) matches `^[a-z][a-z0-9_]*$` or
equals the fixed default token `"app"`; in particular it is always
non-empty, lowercase, and starts with a letter. -/
theorem sanitize_package_name_wellformed (name : List Char) :
    (matchesPkgPattern (sanitize_package_name name) = true ∨
      sanitize_package_name name = appToken) ∧
    sanitize_package_name name ≠ [] ∧
    isLowerAlpha (sanitize_package_name name).headI = true ∧
    pyLower (sanitize_package_name name) = sanitize_package_name name := by
  obtain ⟨hm, -⟩ := sanitize_spec name
  have hall : ∀ c ∈ sanitize_package_name name, isPkgChar c = true := by
    intro c hc
    cases hr : sanitize_package_name name with
    | nil => rw [hr] at hc; simp at hc
    | cons d u =>
      rw [hr] at hc hm
      rw [matchesPkgPattern, Bool.and_eq_true] at hm
      rcases List.mem_cons.mp hc with rfl | hcu
      · rw [isPkgChar, hm.1, Bool.true_or, Bool.true_or]
      · exact List.all_eq_true.mp hm.2 c hcu
  refine ⟨Or.inl hm, ?_, ?_, ?_⟩
  · intro hnil
    rw [hnil] at hm
    simp [matchesPkgPattern] at hm
  · cases hr : sanitize_package_name name with
    | nil => rw [hr] at hm; simp [matchesPkgPattern] at hm
    | cons d u =>
      rw [hr] at hm
      rw [matchesPkgPattern, Bool.and_eq_true] at hm
      exact hm.1
  · exact map_id_of_mem fun c hc => pyLowerChar_pkg (hall c hc)

/-- Claim C10: The sanitizer is idempotent. -/
theorem sanitize_package_name_idempotent (name : List Char) :
    sanitize_package_name (sanitize_package_name name) = sanitize_package_name name := by
  obtain ⟨hm, hlast⟩ := sanitize_spec name
  cases hr : sanitize_package_name name with
  | nil => rw [hr] at hm; simp [matchesPkgPattern] at hm
  | cons d u =>
    rw [hr] at hm hlast
    rw [matchesPkgPattern, Bool.and_eq_true] at hm
    obtain ⟨hd, hu⟩ := hm
    have hall : ∀ c ∈ d :: u, isPkgChar c = true := by
      intro c hc
      rcases List.mem_cons.mp hc with rfl | hcu
      · rw [isPkgChar, hd, Bool.true_or, Bool.true_or]
      · exact List.all_eq_true.mp hu c hcu
    have h1 : sanitizeStep1 (d :: u) = d :: u := by
      rw [sanitizeStep1]
      have hlow : pyLower (d :: u) = d :: u :=
        map_id_of_mem fun c hc => pyLowerChar_pkg (hall c hc)
      rw [hlow]
      exact map_id_of_mem fun c hc => by rw [if_pos (hall c hc)]
    have h2 : sanitizeStep2 (d :: u) = d :: u := by
      rw [sanitizeStep2, if_pos]
      rw [pyIsAlpha_iff_lower_of_pkg (hall d (List.mem_cons_self d u))]
      exact hd
    have hdu : isUnderscore d = false := by
      rw [isUnderscore]
      exact lower_ne_underscore hd
    have h3 : stripBoth isUnderscore (d :: u) = d :: u := by
      rw [stripBoth, List.dropWhile_cons_of_neg (by simp [hdu]), dropTrailing]
      have hrne : (d :: u).reverse ≠ [] := by simp
      cases hrev : (d :: u).reverse with
      | nil => exact absurd hrev hrne
      | cons x xs =>
        have hx : isUnderscore x = false := by
          rw [isUnderscore]
          have hh : (d :: u).reverse.headI = x := by
            rw [hrev]
            rfl
          rwa [hh] at hlast
        rw [List.dropWhile_cons_of_neg (by simp [hx]), ← hrev, List.reverse_reverse]
    rw [sanitize_package_name, h1, h2, h3, if_neg (by simp)]

/-! ## Validation (C4, C5) -/

theorem firstInvalidPlatform_none_iff (ps : List String) :
    firstInvalidPlatform ps = none ↔ ∀ p ∈ ps, pyLowerS p ∈ validPlatforms := by
  induction ps with
  | nil => simp [firstInvalidPlatform]
  | cons p ps ih =>
    rw [firstInvalidPlatform]
    by_cases h : pyLowerS p ∈ validPlatforms
    · rw [if_pos h]
      simp only [ih, List.mem_cons]
      constructor
      · intro hall q hq
        rcases hq with rfl | hq
        · exact h
        · exact hall q hq
      · intro hall q hq
        exact hall q (Or.inr hq)
    · rw [if_neg h]
      constructor
      · intro hc
        exact absurd hc (by simp)
      · intro hall
        exact absurd (hall p (List.mem_cons_self p ps)) h

theorem firstInvalidPlatform_some {ps : List String} {q : String}
    (h : firstInvalidPlatform ps = some q) :
    q ∈ ps ∧ pyLowerS q ∉ validPlatforms := by
  induction ps with
  | nil => simp [firstInvalidPlatform] at h
  | cons p ps ih =>
    rw [firstInvalidPlatform] at h
    by_cases hp : pyLowerS p ∈ validPlatforms
    · rw [if_pos hp] at h
      obtain ⟨hq, hv⟩ := ih h
      exact ⟨List.mem_cons_of_mem p hq, hv⟩
    · rw [if_neg hp] at h
      injection h with h
      subst h
      exact ⟨List.mem_cons_self p ps, hp⟩

/-- Claim C4, counterexample: Constructing a descriptor with an empty project
name raises the builtin `ValueError` with message "Project name cannot be
empty" (as the test suite of the repository, in `test_invalid_project_name` asserts),
not a `ConfigurationError` with message "project name required". -/
theorem validate_empty_name_error_shape :
    validate cfgEmptyName = .error (.valueError "Project name cannot be empty") ∧
    validate cfgEmptyName ≠ .error (.configurationError "project name required") := by
  constructor
  · rfl
  · intro h
    rw [show validate cfgEmptyName
        = .error (.valueError "Project name cannot be empty") from rfl] at h
    injection h with h
    exact absurd h (by decide)

/-- Claim C4, amended: Constructing a Run Descriptor with an empty project name
fails, but the failure is a builtin `ValueError` (the class
`ConfigurationError` of exceptions.py is never raised) and its message is
"Project name cannot be empty". -/
theorem validate_empty_name (c : Config) (h : c.projectName = "") :
    validate c = .error (.valueError "Project name cannot be empty") := by
  rw [validate, if_pos h]

theorem validate_empty_name_witness :
    cfgEmptyName.projectName = "" ∧
    validate cfgEmptyName = .error (.valueError "Project name cannot be empty") :=
  ⟨rfl, validate_empty_name cfgEmptyName rfl⟩

/-- Claim C5, counterexample: The platform list `["IOS"]` validates although
the token `"IOS"` is outside the fixed enumeration (the check lowercases
each token first), so a successfully validated platform set can contain a
token outside the enumeration. -/
theorem validate_accepts_uppercase_platform :
    validate cfgUpperPlatform = .ok () ∧
    "IOS" ∈ cfgUpperPlatform.platforms ∧ "IOS" ∉ validPlatforms := by
  refine ⟨rfl, by decide, by decide⟩

/-- Claim C5, amended: Platform validation is case-insensitive: if some token
of a non-empty-name configuration lowercases outside the fixed enumeration
then construction fails with an error identifying (verbatim) such a token,
and every element of a successfully validated platform list lowercases
into the enumeration (though, e.g. `"IOS"`, need not itself be a member). -/
theorem validate_platform_tokens (c : Config) :
    (c.projectName ≠ "" → (∃ p ∈ c.platforms, pyLowerS p ∉ validPlatforms) →
      ∃ q ∈ c.platforms, pyLowerS q ∉ validPlatforms ∧
        validate c = .error (.valueError ("Invalid platform: " ++ q))) ∧
    (validate c = .ok () → ∀ p ∈ c.platforms, pyLowerS p ∈ validPlatforms) := by
  constructor
  · rintro hname ⟨p, hp, hpv⟩
    have hne : c.platforms ≠ [] := by
      intro h
      rw [h] at hp
      exact absurd hp (by simp)
    cases hfip : firstInvalidPlatform c.platforms with
    | none => exact absurd ((firstInvalidPlatform_none_iff _).mp hfip p hp) hpv
    | some q =>
      obtain ⟨hq, hqv⟩ := firstInvalidPlatform_some hfip
      refine ⟨q, hq, hqv, ?_⟩
      rw [validate, if_neg hname, if_neg hne, hfip]
  · intro hok p hp
    by_contra hpv
    rw [validate] at hok
    by_cases h1 : c.projectName = ""
    · rw [if_pos h1] at hok
      exact absurd hok (by simp)
    · rw [if_neg h1] at hok
      by_cases h2 : c.platforms = []
      · rw [h2] at hp
        exact absurd hp (by simp)
      · rw [if_neg h2] at hok
        cases hfip : firstInvalidPlatform c.platforms with
        | some q =>
          rw [hfip] at hok
          exact absurd hok (by simp)
        | none => exact absurd ((firstInvalidPlatform_none_iff _).mp hfip p hp) hpv

theorem validate_platform_tokens_witness :
    ∃ q ∈ cfgBadPlatform.platforms, pyLowerS q ∉ validPlatforms ∧
      validate cfgBadPlatform = .error (.valueError ("Invalid platform: " ++ q)) :=
  (validate_platform_tokens cfgBadPlatform).1 (by decide)
    ⟨"invalid", by decide, by decide⟩

/-! ## Substring lemmas -/

theorem containsSub_nil_pat (t : List Char) : containsSub [] t = true := by
  cases t with
  | nil => rfl
  | cons c cs => rfl

theorem isPrefixOf_iff {l₁ l₂ : List Char} : l₁.isPrefixOf l₂ = true ↔ l₁ <+: l₂ :=
  List.isPrefixOf_iff_prefix

theorem containsSub_of_starts {pat s : List Char} (h : pat <+: s) :
    containsSub pat s = true := by
  cases s with
  | nil =>
    have hp : pat = [] := List.prefix_nil.mp h
    subst hp
    rfl
  | cons c cs =>
    rw [containsSub, isPrefixOf_iff.mpr h, Bool.true_or]

theorem containsSub_append_right {pat s : List Char} (t : List Char)
    (h : containsSub pat s = true) : containsSub pat (t ++ s) = true := by
  induction t with
  | nil => simpa using h
  | cons c t ih =>
    rw [List.cons_append, containsSub, ih, Bool.or_true]

theorem containsSub_append_left {pat s : List Char} (t : List Char)
    (h : containsSub pat s = true) : containsSub pat (s ++ t) = true := by
  induction s with
  | nil =>
    have hp : pat = [] := by
      rw [containsSub] at h
      exact List.isEmpty_iff.mp h
    subst hp
    exact containsSub_nil_pat _
  | cons c cs ih =>
    rw [containsSub] at h
    rw [List.cons_append, containsSub]
    rcases Bool.or_eq_true_iff.mp h with hpre | hrest
    · rw [isPrefixOf_iff] at hpre
      have hp2 : pat <+: c :: (cs ++ t) := by
        rw [← List.cons_append]
        exact hpre.trans (List.prefix_append (c :: cs) t)
      rw [isPrefixOf_iff.mpr hp2, Bool.true_or]
    · rw [ih hrest, Bool.or_true]

/-! ## The SDK manager (C2, C6) -/

/-- Claim C2: When local and remote SDK histories have diverged, reconciliation
under policy `skip` returns successfully with the checkout state unchanged
(in particular the current commit), while under policy `reset` (with the
git reset command succeeding) it returns successfully with the local head
equal to the head of the remote tracking branch. -/
theorem handle_diverged_branches_spec (w : World) :
    (w.flutterUpdateMode = "skip" → handle_diverged_branches w = .ok w) ∧
    (w.flutterUpdateMode = "reset" → w.gitOk = true →
      handle_diverged_branches w = .ok { w with localHead := w.remoteHead }) := by
  constructor
  · intro h
    rw [handle_diverged_branches, if_pos h]
  · intro h hg
    rw [handle_diverged_branches, if_neg (by rw [h]; decide), if_pos h, if_pos hg]

theorem handle_diverged_branches_witness :
    handle_diverged_branches { baseWorld with flutterUpdateMode := "skip" }
      = .ok { baseWorld with flutterUpdateMode := "skip" } ∧
    handle_diverged_branches baseWorld
      = .ok { baseWorld with localHead := baseWorld.remoteHead } :=
  ⟨(handle_diverged_branches_spec _).1 rfl,
   (handle_diverged_branches_spec baseWorld).2 rfl rfl⟩

theorem ensureFlutterPath_frame (w : World) :
    (ensureFlutterPath w).doctorRan = w.doctorRan ∧
    (ensureFlutterPath w).flutterRootExists = w.flutterRootExists := by
  cases hz : w.zprofile with
  | none => exact ⟨by simp [ensureFlutterPath, hz], by simp [ensureFlutterPath, hz]⟩
  | some content =>
    by_cases hc : containsS (flutterPathLine w) content = true
    · exact ⟨by simp [ensureFlutterPath, hz, hc], by simp [ensureFlutterPath, hz, hc]⟩
    · exact ⟨by simp [ensureFlutterPath, hz, hc], by simp [ensureFlutterPath, hz, hc]⟩

theorem ensureFlutterPath_zprofile (w : World) :
    ∃ z, (ensureFlutterPath w).zprofile = some z ∧
      containsS (flutterPathLine w) z = true := by
  cases hz : w.zprofile with
  | none =>
    refine ⟨flutterPathLine w ++ "\n", by simp [ensureFlutterPath, hz], ?_⟩
    rw [containsS, String.data_append]
    exact containsSub_append_left _ (containsSub_of_starts (List.prefix_rfl))
  | some content =>
    by_cases hc : containsS (flutterPathLine w) content = true
    · exact ⟨content, by simp [ensureFlutterPath, hz, hc], hc⟩
    · refine ⟨content ++ "\n" ++ flutterPathLine w ++ "\n",
        by simp [ensureFlutterPath, hz, hc], ?_⟩
      rw [containsS, String.data_append, String.data_append, String.data_append,
        List.append_assoc]
      exact containsSub_append_right _
        (containsSub_append_left _ (containsSub_of_starts (List.prefix_rfl)))

theorem ensureFlutterPath_already {w : World} {z₀ : String} (hz : w.zprofile = some z₀)
    (hc : containsS (flutterPathLine w) z₀ = true) : ensureFlutterPath w = w := by
  simp only [ensureFlutterPath, hz, hc, if_true]

theorem flutterPathLine_congr {w w' : World} (h : w'.home = w.home) :
    flutterPathLine w' = flutterPathLine w := by
  rw [flutterPathLine, flutterPathLine, h]

/-- The install-or-update step of `ensure_flutter` in a non-reclone mode
with git commands succeeding: it succeeds, reaches Present, and does not
touch the shell profile, the home directory or the doctor flag. -/
theorem sdk_step_ok (w : World) (hgit : w.gitOk = true)
    (hmode : w.flutterUpdateMode = "reset" ∨ w.flutterUpdateMode = "skip") :
    ∃ w₁, (if ¬ (w.flutterRootExists ∧ w.gitDirExists) then installFlutter w
            else updateFlutter w) = .ok w₁ ∧
      w₁.zprofile = w.zprofile ∧ w₁.home = w.home ∧
      w₁.flutterRootExists = true ∧ w₁.doctorRan = w.doctorRan := by
  by_cases hex : w.flutterRootExists ∧ w.gitDirExists
  · rw [if_neg (by simpa using hex), updateFlutter, if_pos hgit]
    by_cases hff : w.canFastForward = true
    · rw [if_pos hff]
      exact ⟨_, rfl, rfl, rfl, by simpa using hex.1, rfl⟩
    · rw [if_neg hff, handle_diverged_branches]
      rcases hmode with hm | hm
      · rw [if_neg (by rw [hm]; decide), if_pos hm, if_pos hgit]
        exact ⟨_, rfl, rfl, rfl, by simpa using hex.1, rfl⟩
      · rw [if_pos hm]
        exact ⟨w, rfl, rfl, rfl, by simpa using hex.1, rfl⟩
  · rw [if_pos hex, installFlutter, if_pos hgit]
    exact ⟨_, rfl, rfl, rfl, rfl, rfl⟩

/-- Claim C6, amended: For every non-dry-run configuration under update policy
`reset` or `skip` (with git commands succeeding), once the checkout is
Present the manager ensures the export line is in the shell profile
(appending only if absent, creating the file if needed, leaving the
profile untouched when the line is already there) and then runs the
self-diagnostic, whose exit code is unconstrained (a non-zero result is
not fatal); under policy `reclone` neither the profile edit nor the
diagnostic happens (see the counterexample). -/
theorem ensure_flutter_path_and_doctor (w : World)
    (hdry : w.dryRun = false) (hgit : w.gitOk = true)
    (hmode : w.flutterUpdateMode = "reset" ∨ w.flutterUpdateMode = "skip") :
    ∃ w', ensure_flutter w = .ok w' ∧
      w'.flutterRootExists = true ∧
      w'.doctorRan = true ∧
      (∃ z, w'.zprofile = some z ∧ containsS (flutterPathLine w) z = true) ∧
      (∀ z₀, w.zprofile = some z₀ → containsS (flutterPathLine w) z₀ = true →
        w'.zprofile = w.zprofile) := by
  have hrecl : ¬ w.flutterUpdateMode = "reclone" := by
    rcases hmode with hm | hm <;> rw [hm] <;> decide
  obtain ⟨w₁, hstep, hz, hh, hroot, -⟩ := sdk_step_ok w hgit hmode
  rw [ensure_flutter, if_neg (by simp [hdry]), if_neg hrecl, hstep]
  refine ⟨runFlutterDoctor (ensureFlutterPath w₁), rfl, ?_, rfl, ?_, ?_⟩
  · show (ensureFlutterPath w₁).flutterRootExists = true
    rw [(ensureFlutterPath_frame w₁).2, hroot]
  · obtain ⟨z, hz', hcz⟩ := ensureFlutterPath_zprofile w₁
    refine ⟨z, hz', ?_⟩
    rwa [flutterPathLine_congr hh] at hcz
  · intro z₀ hz₀ hc₀
    show (ensureFlutterPath w₁).zprofile = w.zprofile
    have hza : w₁.zprofile = some z₀ := by rw [hz, hz₀]
    have hca : containsS (flutterPathLine w₁) z₀ = true := by
      rw [flutterPathLine_congr hh]
      exact hc₀
    rw [ensureFlutterPath_already hza hca, hz]

theorem ensure_flutter_path_and_doctor_witness :
    ∃ w', ensure_flutter baseWorld = .ok w' ∧
      w'.flutterRootExists = true ∧
      w'.doctorRan = true ∧
      (∃ z, w'.zprofile = some z ∧ containsS (flutterPathLine baseWorld) z = true) ∧
      (∀ z₀, baseWorld.zprofile = some z₀ →
        containsS (flutterPathLine baseWorld) z₀ = true →
        w'.zprofile = baseWorld.zprofile) :=
  ensure_flutter_path_and_doctor baseWorld rfl rfl (Or.inl rfl)

/-- Claim C6, counterexample: In a non-dry-run world under policy `reclone` the
run reaches Present (`flutterRootExists = true`) yet `ensure_flutter`
returns without running the self-diagnostic and without touching the shell
profile, which still lacks the export line — refuting the claim for the
`reclone` policy. -/
theorem ensure_flutter_reclone_skips_path_and_doctor :
    (ensure_flutter recloneWorld).map World.flutterRootExists = .ok true ∧
    (ensure_flutter recloneWorld).map World.doctorRan = .ok false ∧
    (ensure_flutter recloneWorld).map World.zprofile = .ok (some "") ∧
    containsS (flutterPathLine recloneWorld) "" = false :=
  ⟨rfl, rfl, rfl, rfl⟩

/-! ## Dry-run mode (C7) and project creation (C8) -/

/-- Claim C7: With `dry_run` set, every stage prints its intention message and
performs no mutating operation: the whole run succeeds and the final world
differs from the initial one only in the four console lines. -/
theorem runSetup_dry_run (w : World) (h : w.dryRun = true) :
    runSetup w = .ok { w with console := w.console ++
      ["DRY RUN: Would check and install prerequisites",
       "DRY RUN: Would manage Flutter SDK",
       "DRY RUN: Would create Flutter project",
       "DRY RUN: Would bootstrap development environment"] } := by
  simp only [runSetup, runPrerequisitesStage, check_and_install, runFlutterStage,
    ensure_flutter, runProjectCreationStage, create_project, runBootstrapStage,
    bootstrap_project, h, if_true, List.append_assoc, List.cons_append,
    List.nil_append, List.singleton_append]

theorem runSetup_dry_run_witness :
    runSetup dryWorld = .ok { dryWorld with console := dryWorld.console ++
      ["DRY RUN: Would check and install prerequisites",
       "DRY RUN: Would manage Flutter SDK",
       "DRY RUN: Would create Flutter project",
       "DRY RUN: Would bootstrap development environment"] } :=
  runSetup_dry_run dryWorld rfl

/-- Claim C8: Project creation is idempotent: if the derived project path
already exists, `create_project` returns the world unchanged (no
generation attempt, no overwrite, no exception), and any successful
invocation is followed by a second invocation that is a no-op. -/
theorem create_project_idempotent (w : World) (hdry : w.dryRun = false) :
    (w.projectPathExists = true → create_project w = .ok w) ∧
    (∀ w', create_project w = .ok w' → create_project w' = .ok w') := by
  constructor
  · intro hex
    simp only [create_project, hdry, Bool.false_eq_true, if_false, hex, if_true]
  · intro w' hok
    simp only [create_project, hdry, Bool.false_eq_true, if_false] at hok
    have hd' : w'.dryRun = false ∧ w'.projectPathExists = true := by
      by_cases hex : w.projectPathExists = true
      · rw [if_pos hex] at hok
        injection hok with hww
        subst hww
        exact ⟨hdry, hex⟩
      · rw [if_neg hex] at hok
        by_cases hcr : w.createOk = true
        · rw [if_pos hcr] at hok
          injection hok with hww
          subst hww
          exact ⟨rfl, rfl⟩
        · rw [if_neg hcr] at hok
          exact absurd hok (by simp)
    simp only [create_project, hd'.1, Bool.false_eq_true, if_false, hd'.2, if_true]

theorem create_project_idempotent_witness :
    create_project { baseWorld with projectPathExists := true }
      = .ok { baseWorld with projectPathExists := true } ∧
    create_project { baseWorld with projectPathExists := true, generations := 1 }
      = .ok { baseWorld with projectPathExists := true, generations := 1 } :=
  ⟨(create_project_idempotent { baseWorld with projectPathExists := true } rfl).1 rfl,
   (create_project_idempotent baseWorld rfl).2
     { baseWorld with projectPathExists := true, generations := 1 } rfl⟩

/-! ## Bootstrapper step isolation (C3) -/

theorem runStepList_all_caught (l : List BStep) : ∀ w : World,
    (∀ s ∈ l, s ∈ w.failingSteps → stepCatches s = true) →
    runStepList w l = .ok { w with bootstrapCompleted :=
      w.bootstrapCompleted ++ l.filter (stepWrites w) } := by
  induction l with
  | nil =>
    intro w _
    simp [runStepList]
  | cons s rest ih =>
    intro w hall
    rw [runStepList, runStep]
    by_cases hs : s ∈ w.failingSteps
    · rw [if_pos hs, if_pos (hall s (List.mem_cons_self s rest) hs)]
      show runStepList w rest = _
      rw [ih w (fun t ht => hall t (List.mem_cons_of_mem s ht))]
      have hw : stepWrites w s = false := by simp [stepWrites, hs]
      rw [List.filter_cons, hw]
      simp
    · rw [if_neg hs]
      show runStepList { w with bootstrapCompleted := w.bootstrapCompleted ++ [s] } rest = _
      rw [ih { w with bootstrapCompleted := w.bootstrapCompleted ++ [s] }
        (fun t ht hf => hall t (List.mem_cons_of_mem s ht) hf)]
      have hw : stepWrites w s = true := by simp [stepWrites, hs]
      show Except.ok { w with bootstrapCompleted :=
        (w.bootstrapCompleted ++ [s]) ++ rest.filter (stepWrites w) } = _
      rw [List.filter_cons, hw]
      simp [List.append_assoc]

theorem runStepList_first_uncaught (l : List BStep) : ∀ (w : World) (s₀ : BStep),
    l.find? (stepAborts w) = some s₀ →
    runStepList w l = .error (.stepFailure (stepName s₀), { w with bootstrapCompleted :=
      w.bootstrapCompleted ++ (l.takeWhile (fun s => !stepAborts w s)).filter (stepWrites w) }) := by
  induction l with
  | nil =>
    intro w s₀ h
    simp [List.find?] at h
  | cons s rest ih =>
    intro w s₀ h
    rw [runStepList, runStep]
    by_cases hab : stepAborts w s = true
    · rw [List.find?_cons_of_pos rest hab] at h
      injection h with h
      subst h
      obtain ⟨hmem, hcat⟩ : s ∈ w.failingSteps ∧ stepCatches s = false := by
        have := hab
        rw [stepAborts, Bool.and_eq_true, decide_eq_true_eq, Bool.not_eq_true'] at this
        exact this
      rw [if_pos hmem, if_neg (by rw [hcat]; exact Bool.false_ne_true)]
      rw [List.takeWhile_cons_of_neg (by rw [hab]; decide)]
      simp
    · have hfind : rest.find? (stepAborts w) = some s₀ := by
        rwa [List.find?_cons_of_neg rest hab] at h
      have habf : stepAborts w s = false := by
        cases hb : stepAborts w s
        · rfl
        · exact absurd hb hab
      have htw : List.takeWhile (fun s => !stepAborts w s) (s :: rest)
          = s :: List.takeWhile (fun s => !stepAborts w s) rest := by
        refine List.takeWhile_cons_of_pos ?_
        show (!stepAborts w s) = true
        rw [habf]
        rfl
      by_cases hs : s ∈ w.failingSteps
      · have hcat : stepCatches s = true := by
          by_contra hc
          have hcf : stepCatches s = false := by
            cases hcc : stepCatches s
            · rfl
            · exact absurd hcc hc
          exact hab (by rw [stepAborts, hcf]; simp [hs])
        rw [if_pos hs, if_pos hcat]
        show runStepList w rest = _
        rw [ih w s₀ hfind, htw]
        have hw : stepWrites w s = false := by simp [stepWrites, hs]
        rw [List.filter_cons, hw]
        simp
      · rw [if_neg hs]
        show runStepList { w with bootstrapCompleted := w.bootstrapCompleted ++ [s] } rest = _
        rw [ih { w with bootstrapCompleted := w.bootstrapCompleted ++ [s] } s₀ hfind, htw]
        have hw : stepWrites w s = true := by simp [stepWrites, hs]
        show Except.error (PyErr.stepFailure (stepName s₀), { w with bootstrapCompleted := (w.bootstrapCompleted ++ [s]) ++ (rest.takeWhile (fun s => !stepAborts w s)).filter (stepWrites w) }) = _
        rw [List.filter_cons, hw]
        simp [List.append_assoc]

/-- Claim C3, counterexample: In a non-dry-run world where (only) the
body of the editor-config step raises, `bootstrap_project` propagates the
exception: no later step executes (`bootstrapCompleted` stays empty) and
the orchestrator aborts the run with `FlutterSetupError` — refuting "a
bootstrapper step failure never aborts the run". -/
theorem bootstrap_vscode_failure_aborts :
    bootstrap_project vscodeFailWorld =
      .error (.stepFailure "create_vscode_config", vscodeFailWorld) ∧
    vscodeFailWorld.bootstrapCompleted = [] ∧
    runBootstrapStage vscodeFailWorld =
      .error (.flutterSetupError "Failed to bootstrap project", vscodeFailWorld) :=
  ⟨rfl, rfl, rfl⟩

/-- Claim C3, amended: Only the dependency-addition and formatting steps (and,
inside environment support, the entry-point edit) catch their failures and
continue; if every failing step is one of those, all remaining steps still
execute and the stage succeeds, but a failure in any other step aborts the
bootstrapper at that step — the steps after it do not run — and the
orchestrator wraps the exception in the generic `FlutterSetupError`,
aborting the run. -/
theorem bootstrap_step_isolation (w : World) (hdry : w.dryRun = false) :
    ((∀ s ∈ w.failingSteps, stepCatches s = true) →
      bootstrap_project w = .ok { w with bootstrapCompleted :=
        w.bootstrapCompleted ++ bootstrapSteps.filter (stepWrites w) }) ∧
    (∀ s₀, firstUncaughtFailing w = some s₀ →
      bootstrap_project w = .error (.stepFailure (stepName s₀),
        { w with bootstrapCompleted := w.bootstrapCompleted ++ completedBeforeAbort w }) ∧
      runBootstrapStage w = .error (.flutterSetupError "Failed to bootstrap project",
        { w with bootstrapCompleted := w.bootstrapCompleted ++ completedBeforeAbort w })) := by
  constructor
  · intro hall
    rw [bootstrap_project, if_neg (by simp [hdry])]
    exact runStepList_all_caught bootstrapSteps w fun s _ hf => hall s hf
  · intro s₀ h₀
    have hb : bootstrap_project w = .error (.stepFailure (stepName s₀),
        { w with bootstrapCompleted := w.bootstrapCompleted ++ completedBeforeAbort w }) := by
      rw [bootstrap_project, if_neg (by simp [hdry])]
      exact runStepList_first_uncaught bootstrapSteps w s₀ h₀
    refine ⟨hb, ?_⟩
    rw [runBootstrapStage, hb]

theorem bootstrap_step_isolation_witness :
    bootstrap_project depFailWorld
      = .ok { depFailWorld with bootstrapCompleted :=
          depFailWorld.bootstrapCompleted ++
            bootstrapSteps.filter (stepWrites depFailWorld) } ∧
    (bootstrap_project vscodeFailWorld = .error (.stepFailure (stepName BStep.vscodeConfig),
        { vscodeFailWorld with bootstrapCompleted :=
            vscodeFailWorld.bootstrapCompleted ++ completedBeforeAbort vscodeFailWorld }) ∧
      runBootstrapStage vscodeFailWorld = .error
        (.flutterSetupError "Failed to bootstrap project",
        { vscodeFailWorld with bootstrapCompleted :=
            vscodeFailWorld.bootstrapCompleted ++ completedBeforeAbort vscodeFailWorld })) :=
  ⟨(bootstrap_step_isolation depFailWorld rfl).1 (by decide),
   (bootstrap_step_isolation vscodeFailWorld rfl).2 BStep.vscodeConfig (by decide)⟩

/-! ## The entry-point source edit (C9) -/

theorem replAux_skip (pat rep : List Char) :
    ∀ (l : List Char) (k : Nat), replAux pat rep k l = replaceAll pat rep (l.drop k) := by
  intro l
  induction l with
  | nil =>
    intro k
    rw [List.drop_nil]
    cases k with
    | zero => rfl
    | succ k => rfl
  | cons c cs ih =>
    intro k
    cases k with
    | zero =>
      rw [List.drop_zero]
      rfl
    | succ k =>
      rw [List.drop_succ_cons]
      show replAux pat rep k cs = _
      exact ih k

theorem replaceAll_cons (pat rep : List Char) (c : Char) (cs : List Char) :
    replaceAll pat rep (c :: cs) =
      if pat.isPrefixOf (c :: cs) then
        rep ++ replaceAll pat rep (cs.drop (pat.length - 1))
      else c :: replaceAll pat rep cs := by
  show (if pat.isPrefixOf (c :: cs) then rep ++ replAux pat rep (pat.length - 1) cs
        else c :: replAux pat rep 0 cs) = _
  rw [replAux_skip pat rep cs (pat.length - 1)]
  rfl

theorem replaceAll_of_not_contains {pat : List Char} (rep : List Char) {s : List Char}
    (h : containsSub pat s = false) : replaceAll pat rep s = s := by
  induction s with
  | nil => rfl
  | cons c cs ih =>
    rw [containsSub] at h
    obtain ⟨h1, h2⟩ := Bool.or_eq_false_iff.mp h
    rw [replaceAll_cons, if_neg (by rw [h1]; exact Bool.false_ne_true), ih h2]

theorem prefix_cut {pat X Y : List Char} (h : pat <+: X ++ '\n' :: Y)
    (hnl : '\n' ∉ pat) : pat <+: X ∧ pat.length ≤ X.length := by
  induction X generalizing pat with
  | nil =>
    cases pat with
    | nil => simp
    | cons p ps =>
      obtain ⟨t, ht⟩ := h
      rw [List.cons_append, List.nil_append] at ht
      injection ht with h1 h2
      exact absurd (show '\n' ∈ p :: ps by rw [h1]; exact List.mem_cons_self '\n' ps) hnl
  | cons x X' ih =>
    cases pat with
    | nil => simp
    | cons p ps =>
      obtain ⟨t, ht⟩ := h
      rw [List.cons_append, List.cons_append] at ht
      injection ht with h1 h2
      subst h1
      have hnl' : '\n' ∉ ps := fun hm => hnl (List.mem_cons_of_mem _ hm)
      obtain ⟨hp, hl⟩ := @ih ps ⟨t, h2⟩ hnl'
      refine ⟨List.cons_prefix_cons.mpr ⟨rfl, hp⟩, ?_⟩
      simp only [List.length_cons]
      omega

theorem replaceAll_cons_nl (pat rep : List Char) (hne : pat ≠ []) (hnl : '\n' ∉ pat)
    (V : List Char) :
    replaceAll pat rep ('\n' :: V) = '\n' :: replaceAll pat rep V := by
  cases pat with
  | nil => exact absurd rfl hne
  | cons p ps =>
    have hP : ¬ (p :: ps).isPrefixOf ('\n' :: V) = true := by
      intro hP
      rw [isPrefixOf_iff] at hP
      rcases hP with ⟨t, ht⟩
      rw [List.cons_append] at ht
      injection ht with h1 _
      exact hnl (by rw [← h1]; exact List.mem_cons_self p ps)
    rw [replaceAll_cons, if_neg hP]

theorem replaceAll_split_nl (pat rep : List Char) (hne : pat ≠ []) (hnl : '\n' ∉ pat) :
    ∀ (n : Nat) (U V : List Char), U.length ≤ n →
      replaceAll pat rep (U ++ '\n' :: V)
        = replaceAll pat rep U ++ '\n' :: replaceAll pat rep V := by
  intro n
  induction n with
  | zero =>
    intro U V hU
    have hU0 : U = [] := List.length_eq_zero.mp (Nat.le_zero.mp hU)
    subst hU0
    rw [List.nil_append, replaceAll_cons_nl pat rep hne hnl]
    rfl
  | succ n ihn =>
    intro U V hU
    cases U with
    | nil =>
      rw [List.nil_append, replaceAll_cons_nl pat rep hne hnl]
      rfl
    | cons c U' =>
      rw [List.cons_append]
      by_cases hA : pat.isPrefixOf (c :: (U' ++ '\n' :: V)) = true
      · have hpre : pat <+: (c :: U') ++ '\n' :: V := by
          rw [List.cons_append]
          exact isPrefixOf_iff.mp hA
        obtain ⟨hpX, hlen⟩ := prefix_cut hpre hnl
        have hB : pat.isPrefixOf (c :: U') = true := isPrefixOf_iff.mpr hpX
        have hd : pat.length - 1 ≤ U'.length := by
          simp only [List.length_cons] at hlen
          omega
        rw [replaceAll_cons pat rep c (U' ++ '\n' :: V), replaceAll_cons pat rep c U',
          if_pos hA, if_pos hB, List.drop_append_of_le_length hd,
          ihn (U'.drop (pat.length - 1)) V
            (by rw [List.length_drop]; simp only [List.length_cons] at hU; omega),
          List.append_assoc]
      · have hB : ¬ pat.isPrefixOf (c :: U') = true := by
          intro hBB
          apply hA
          rw [isPrefixOf_iff] at hBB ⊢
          exact hBB.trans ⟨'\n' :: V, by rw [List.cons_append]⟩
        rw [replaceAll_cons pat rep c (U' ++ '\n' :: V), replaceAll_cons pat rep c U',
          if_neg hA, if_neg hB,
          ihn U' V (by simp only [List.length_cons] at hU; omega), List.cons_append]

theorem joinNl_cons_ne {l : List Char} {ls : List (List Char)} (h : ls ≠ []) :
    joinNl (l :: ls) = l ++ '\n' :: joinNl ls := by
  cases ls with
  | nil => exact absurd rfl h
  | cons a as => rfl

theorem joinNl_insert_decomp (A B : List (List Char)) (I : List Char) :
    ∃ X Y, joinNl (A ++ I :: B) = X ++ I ++ Y ∧
      (X = [] ∨ ∃ X', X = X' ++ ['\n']) ∧ (Y = [] ∨ ∃ Y', Y = '\n' :: Y') := by
  induction A with
  | nil =>
    cases B with
    | nil => exact ⟨[], [], by simp [joinNl], Or.inl rfl, Or.inl rfl⟩
    | cons b bs =>
      refine ⟨[], '\n' :: joinNl (b :: bs), ?_, Or.inl rfl, Or.inr ⟨_, rfl⟩⟩
      rw [List.nil_append, joinNl_cons_ne (by simp), List.nil_append]
  | cons a A' ih =>
    obtain ⟨X, Y, hJ, hX, hY⟩ := ih
    refine ⟨a ++ '\n' :: X, Y, ?_, Or.inr ?_, hY⟩
    · rw [List.cons_append, joinNl_cons_ne (by simp), hJ]
      simp [List.append_assoc]
    · rcases hX with rfl | ⟨X', rfl⟩
      · exact ⟨a, rfl⟩
      · exact ⟨a ++ '\n' :: X', by simp⟩

theorem containsSub_marker_replaceAll {X Y : List Char}
    (hX : X = [] ∨ ∃ X', X = X' ++ ['\n']) (hY : Y = [] ∨ ∃ Y', Y = '\n' :: Y') :
    containsSub dotenvMarker
      (replaceAll mainPattern mainReplacement (X ++ dotenvImportLine ++ Y)) = true := by
  have hne : mainPattern ≠ [] := by decide
  have hnl : '\n' ∉ mainPattern := by decide
  have hnotI : containsSub mainPattern dotenvImportLine = false := by decide
  have hmkI : containsSub dotenvMarker dotenvImportLine = true := by decide
  rcases hY with rfl | ⟨Y', rfl⟩
  · rcases hX with rfl | ⟨X', rfl⟩
    · rw [List.nil_append, List.append_nil, replaceAll_of_not_contains _ hnotI]
      exact hmkI
    · have hr : (X' ++ ['\n']) ++ dotenvImportLine ++ [] = X' ++ '\n' :: dotenvImportLine := by
        simp
      rw [hr, replaceAll_split_nl mainPattern mainReplacement hne hnl X'.length X'
        dotenvImportLine le_rfl, replaceAll_of_not_contains _ hnotI]
      exact containsSub_append_right _ (containsSub_append_right ['\n'] hmkI)
  · rcases hX with rfl | ⟨X', rfl⟩
    · rw [List.nil_append]
      rw [replaceAll_split_nl mainPattern mainReplacement hne hnl dotenvImportLine.length
        dotenvImportLine Y' le_rfl, replaceAll_of_not_contains _ hnotI]
      exact containsSub_append_left _ hmkI
    · have hr : (X' ++ ['\n']) ++ dotenvImportLine ++ '\n' :: Y'
          = X' ++ '\n' :: (dotenvImportLine ++ '\n' :: Y') := by
        simp
      rw [hr, replaceAll_split_nl mainPattern mainReplacement hne hnl X'.length X' _ le_rfl,
        replaceAll_split_nl mainPattern mainReplacement hne hnl dotenvImportLine.length
          dotenvImportLine Y' le_rfl, replaceAll_of_not_contains _ hnotI]
      exact containsSub_append_right _
        (containsSub_append_right ['\n'] (containsSub_append_left _ hmkI))

theorem modify_main_dart_marker (content : List Char)
    (h : containsSub dotenvMarker content = true) :
    modify_main_dart (some content) = some content := by
  rw [modify_main_dart, if_pos h]

theorem modify_main_dart_adds_marker (content : List Char)
    (h : containsSub dotenvMarker content = false) :
    ∃ out, modify_main_dart (some content) = some out ∧
      containsSub dotenvMarker out = true := by
  rw [modify_main_dart, if_neg (by rw [h]; exact Bool.false_ne_true)]
  refine ⟨_, rfl, ?_⟩
  obtain ⟨X, Y, hJ, hX, hY⟩ := joinNl_insert_decomp
    ((splitOnNl content).take (dotenvInsertPos (splitOnNl content)))
    ((splitOnNl content).drop (dotenvInsertPos (splitOnNl content))) dotenvImportLine
  rw [show insertAt (dotenvInsertPos (splitOnNl content)) dotenvImportLine (splitOnNl content)
      = (splitOnNl content).take (dotenvInsertPos (splitOnNl content)) ++
        dotenvImportLine :: (splitOnNl content).drop (dotenvInsertPos (splitOnNl content))
    from rfl, hJ]
  exact containsSub_marker_replaceAll hX hY

/-- Claim C9: The environment-loading source edit is idempotent: a file
already containing the loading marker is left unchanged (so the import and
the load statement are never duplicated), applying the edit twice equals
applying it once, and when no marker is present the new import line is
inserted immediately after the first framework import line (index of the
first match plus one), or at the top if none exists, before the entry
function opening line is rewritten. -/
theorem modify_main_dart_idempotent (c : Option (List Char)) :
    (∀ s, c = some s → containsSub dotenvMarker s = true → modify_main_dart c = c) ∧
    modify_main_dart (modify_main_dart c) = modify_main_dart c ∧
    (∀ s, c = some s → containsSub dotenvMarker s = false →
      modify_main_dart c = some (replaceAll mainPattern mainReplacement
        (joinNl (insertAt (dotenvInsertPos (splitOnNl s)) dotenvImportLine (splitOnNl s))))) := by
  refine ⟨?_, ?_, ?_⟩
  · rintro s rfl h
    exact modify_main_dart_marker s h
  · cases c with
    | none => rfl
    | some s =>
      by_cases h : containsSub dotenvMarker s = true
      · rw [modify_main_dart_marker s h, modify_main_dart_marker s h]
      · have hf : containsSub dotenvMarker s = false := by
          cases hc : containsSub dotenvMarker s
          · rfl
          · exact absurd hc h
        obtain ⟨out, ho, hm⟩ := modify_main_dart_adds_marker s hf
        rw [ho, modify_main_dart_marker out hm]
  · rintro s rfl h
    rw [modify_main_dart, if_neg (by rw [h]; exact Bool.false_ne_true)]

theorem modify_main_dart_idempotent_witness :
    modify_main_dart (some markerSample) = some markerSample ∧
    modify_main_dart (some mainDartSample) = some (replaceAll mainPattern mainReplacement
      (joinNl (insertAt (dotenvInsertPos (splitOnNl mainDartSample)) dotenvImportLine
        (splitOnNl mainDartSample)))) :=
  ⟨(modify_main_dart_idempotent (some markerSample)).1 markerSample rfl (by decide),
   (modify_main_dart_idempotent (some mainDartSample)).2.2 mainDartSample rfl (by decide)⟩

end FlutterSetup
